import Mathlib

/-!
Verification development for the `envmem-mcp` hybrid vector store
(`src/cloudflare-vector-store.ts`).

The store is modelled in its multi-tenant mode: migration
`0002_add_user_id.sql` adds the `user_id` column together with the unique
index on `(user_id, name)`, so `checkMultiTenant` returns `true` and every
query carries the tenant filter.  External collaborators (Workers AI
embedding, Vectorize, the D1 FTS5 index and the LIKE scan) are modelled as
oracles bundled in `ExternalWorld`; the D1 relational store itself is the
explicit `StoreState`.  JavaScript numbers are modelled by `ℚ` (all score
arithmetic in the source is exact decimal/fraction arithmetic), and record
ids by `Nat`.
-/

namespace EnvMem

/-! ### Character/string helpers

The source manipulates strings with `split(/\s+/)`, `toLowerCase`,
`replace`, `parseInt` and template literals.  These are modelled by
structural functions on the underlying character lists so that all
definitions evaluate inside the kernel.
-/

/-- Model of `needle` being an initial segment of `hay` (character lists). -/
def isPreChars : List Char → List Char → Bool
  | [], _ => true
  | _ :: _, [] => false
  | a :: as, b :: bs => a == b && isPreChars as bs

/-- Substring containment on character lists (JS `String.includes`, which is
what SQL `LIKE '%w%'` tests). -/
def containsChars (needle : List Char) : List Char → Bool
  | [] => needle.isEmpty
  | c :: rest => isPreChars needle (c :: rest) || containsChars needle rest

/-- `hay.includes(needle)` on strings. -/
def strContainsSub (hay needle : String) : Bool :=
  containsChars needle.data hay.data

/-- JS `hay.replace(needle, '')` — removes the first occurrence of `needle`
(used in the source as `match.id.replace('env-', '')`). -/
def removeFirstChars (needle : List Char) : List Char → List Char
  | [] => []
  | c :: rest =>
    if isPreChars needle (c :: rest) then (c :: rest).drop needle.length
    else c :: removeFirstChars needle rest

/-- Accumulator-based splitting of a character list at whitespace runs,
modelling JS `split(/\s+/)`.  Empty fragments are dropped here; the source
drops them immediately afterwards through `filter(word => word.length > 1)`,
so the composites agree. -/
def splitWsAux : List Char → List Char → List String
  | [], acc => if acc.isEmpty then [] else [⟨acc.reverse⟩]
  | c :: rest, acc =>
    if c.isWhitespace then
      (if acc.isEmpty then splitWsAux rest [] else ⟨acc.reverse⟩ :: splitWsAux rest [])
    else splitWsAux rest (c :: acc)

/-- `q.split(/\s+/)` on a string. -/
def splitWsStr (s : String) : List String := splitWsAux s.data []

/-- JS `toLowerCase` (ASCII case folding, which is all the source relies on). -/
def lowerStr (s : String) : String := ⟨s.data.map Char.toLower⟩

/-- `name.replace(/_/g, ' ')` from `enrichText`. -/
def underscoresToSpaces (s : String) : String :=
  ⟨s.data.map (fun c => if c = '_' then ' ' else c)⟩

/-- Joining a list of strings with a separator (`Array.prototype.join`). -/
def joinSep (sep : String) : List String → String
  | [] => ""
  | [x] => x
  | x :: y :: rest => x ++ sep ++ joinSep sep (y :: rest)

/-- Numeric value of a list of decimal digits. -/
def digitsVal : List Char → Nat → Nat
  | [], acc => acc
  | c :: rest, acc => digitsVal rest (acc * 10 + (c.toNat - '0'.toNat))

/-- JS `parseInt` restricted to the shapes arising in the source: reads the
leading run of decimal digits, `none` when there is none (`NaN`).  A leading
sign cannot produce a positive record id, so it is folded into `none`; the
caller skips the match in either case. -/
def jsParseIntNat (s : String) : Option Nat :=
  let ds := s.data.takeWhile (fun c => c.isDigit)
  if ds.isEmpty then none else some (digitsVal ds 0)

/-- `JSON.stringify` of a string array as stored in the `keywords` column
(the LIKE fallback scans this raw JSON text).  Keyword strings in this store
contain no characters needing JSON escapes. -/
def jsonArrayString (xs : List String) : String :=
  "[" ++ joinSep "," (xs.map (fun k => "\"" ++ k ++ "\"")) ++ "]"

/-! ### Data model (`types.ts`, schema files) -/

/-- A row of `env_variables` as surfaced by `rowToEnvVariable`.
`exampleVal` models the `example` column (a reserved word in Lean). -/
structure EnvVariable where
  id : Nat
  userId : String
  name : String
  description : String
  category : String
  service : String
  required : Bool
  exampleVal : Option String
  keywords : List String
  relatedTo : List String
deriving Repr, DecidableEq

/-- Search options recognised by `search` (`SearchOptions` in `types.ts`). -/
structure SearchOptions where
  category : Option String := none
  service : Option String := none
  requiredOnly : Bool := false
  limit : Option Nat := none
  minScore : Option ℚ := none
deriving Repr, DecidableEq

/-- A scored search hit (`SearchResult` in `types.ts`). -/
structure SearchResult where
  env : EnvVariable
  score : ℚ
  matchType : String
deriving Repr, DecidableEq

/-- Metadata stored with each Vectorize vector by `insertEnvVariable`. -/
structure VectorizeMetadata where
  userId : String
  envVariableId : Nat
  name : String
deriving Repr, DecidableEq

/-- A vector held by the (shared, cross-tenant) Vectorize index.  The dense
values themselves are opaque to every property considered here; similarity
scores are supplied by the `ExternalWorld` oracle. -/
structure VectorizeVector where
  id : String
  metadata : Option VectorizeMetadata
deriving Repr, DecidableEq

/-- A `match` entry returned by `VECTORIZE.query`. -/
structure VectorizeMatch where
  id : String
  metadata : Option VectorizeMetadata
  score : ℚ
deriving Repr, DecidableEq

/-- A row of `env_variables` (record fields plus the indexing columns
`vector_id` / `indexed_at`). -/
structure EnvRow where
  env : EnvVariable
  vectorId : Option String
  indexedAt : Option Nat
deriving Repr, DecidableEq

/-- A row of `indexing_status` (schema in the initial migration; note the
table has no uniqueness constraint on `env_variable_id`). -/
structure IndexingStatusRow where
  envVariableId : Nat
  status : String
  queueTimestamp : Option Nat
  indexedTimestamp : Option Nat
  errorMessage : Option String
  retryCount : Nat
deriving Repr, DecidableEq

/-- The D1 database plus the Vectorize index contents.  `nextId` models the
`AUTOINCREMENT` counter of `env_variables`. -/
structure StoreState where
  rows : List EnvRow
  statusRows : List IndexingStatusRow
  vectors : List VectorizeVector
  nextId : Nat
deriving Repr, DecidableEq

/-- Behaviour of the external collaborators during one request:
embedding provider, Vectorize scoring/availability, the FTS5 engine, the
LIKE statement execution, and the wall clock. -/
structure ExternalWorld where
  /-- `generateEmbedding`: succeeds or throws per input text. -/
  embed : String → Except String Unit
  /-- Cosine score Vectorize reports for a stored vector against the query. -/
  cosineScore : String → VectorizeVector → ℚ
  /-- Whether `VECTORIZE.query` succeeds. -/
  vectorizeQueryOk : Bool
  /-- Whether `VECTORIZE.insert` succeeds. -/
  vectorizeInsertOk : Bool
  /-- Error message raised by a failing `VECTORIZE.insert`. -/
  vectorizeInsertErr : String
  /-- The FTS5 engine: ranked rowids for a token disjunction, or a thrown
  query error.  The FTS table is global; tenant scoping happens in the SQL
  `WHERE` clause modelled below. -/
  ftsExec : List String → Except Unit (List Nat)
  /-- Whether the LIKE fallback statement executes. -/
  likeOk : Bool
  /-- Current time (seconds). -/
  now : Nat

/-! ### Read path: filters and the two channels -/

/-- JS truthiness filter used for `options.category` / `options.service`:
the filter fires only when the option is present and non-empty, and the
record field differs. -/
def optMismatch (opt : Option String) (v : String) : Bool :=
  match opt with
  | some c => !(c == "") && !(v == c)
  | none => false

/-- `options.minScore && match.score < options.minScore` (a present but zero
`minScore` is falsy in JS and disables the filter). -/
def minScoreReject (opt : Option ℚ) (s : ℚ) : Bool :=
  match opt with
  | some m => !(m == 0) && decide (s < m)
  | none => false

/-- `options.limit || 10`: absent or zero limit falls back to 10. -/
def effLimit (o : SearchOptions) : Nat :=
  match o.limit with
  | some n => if n == 0 then 10 else n
  | none => 10

/-- The `(user_id, name)` key condition on a record, as used by the unique
index `idx_env_user_name` and by every `WHERE user_id = ? AND name = ?`
clause. -/
def keyE (u nm : String) (e : EnvVariable) : Bool :=
  e.userId == u && e.name == nm

/-- The key condition lifted to a row. -/
def keyMatch (u nm : String) (r : EnvRow) : Bool :=
  keyE u nm r.env

/-- `SELECT * FROM env_variables WHERE id = ?1 AND user_id = ?2` (`getById`,
multi-tenant branch). -/
def getById (st : StoreState) (u : String) (id : Nat) : Option EnvVariable :=
  (st.rows.find? (fun r => r.env.id == id && r.env.userId == u)).map (fun r => r.env)

/-- `VECTORIZE.query(embedding, { topK, filter: { userId } })`: the external
index restricts to vectors whose metadata tag equals the requested tenant,
ranks them by cosine score (descending, ties in insertion order) and returns
the `topK` best. -/
def vectorizeQuery (w : ExternalWorld) (st : StoreState) (q : String) (topK : Nat)
    (u : String) : Except String (List VectorizeMatch) :=
  if w.vectorizeQueryOk then
    .ok ((((st.vectors.filter (fun v =>
        match v.metadata with
        | some md => md.userId == u
        | none => false)).mergeSort
          (fun a b => decide (w.cosineScore q b ≤ w.cosineScore q a))).take topK).map
      (fun v => ⟨v.id, v.metadata, w.cosineScore q v⟩))
  else .error "vectorize query failed"

/-- Recovery of the record id from a Vectorize match:
`(match.metadata as any)?.envVariableId || parseInt(match.id.replace('env-', ''))`
followed by the `!envId || isNaN(envId)` skip. -/
def extractEnvId (m : VectorizeMatch) : Option Nat :=
  let fromMeta : Nat :=
    match m.metadata with
    | some md => md.envVariableId
    | none => 0
  let envId : Option Nat :=
    if fromMeta ≠ 0 then some fromMeta
    else jsParseIntNat ⟨removeFirstChars "env-".data m.id.data⟩
  match envId with
  | some 0 => none
  | some n => some n
  | none => none

/-- Filter block of `semanticSearch` (category / service / requiredOnly /
minScore), true when the hit is dropped. -/
def semReject (o : SearchOptions) (env : EnvVariable) (score : ℚ) : Bool :=
  optMismatch o.category env.category || optMismatch o.service env.service ||
  (o.requiredOnly && !env.required) || minScoreReject o.minScore score

/-- The `for (const match of vectorResults.matches)` loop of
`semanticSearch`: resolve each match against D1, drop filtered hits, stop as
soon as `limit` results are collected. -/
def semLoop (st : StoreState) (u : String) (o : SearchOptions) :
    List VectorizeMatch → List SearchResult → List SearchResult
  | [], acc => acc.reverse
  | m :: rest, acc =>
    match extractEnvId m with
    | none => semLoop st u o rest acc
    | some envId =>
      match getById st u envId with
      | none => semLoop st u o rest acc
      | some env =>
        if semReject o env m.score then semLoop st u o rest acc
        else
          let acc' := ⟨env, m.score, "semantic"⟩ :: acc
          if effLimit o ≤ acc'.length then acc'.reverse
          else semLoop st u o rest acc'

/-- Body of the `try` block of `semanticSearch`. -/
def semanticSearchE (w : ExternalWorld) (st : StoreState) (u : String) (q : String)
    (o : SearchOptions) : Except String (List SearchResult) :=
  match w.embed q with
  | .error msg => .error msg
  | .ok _ =>
    match vectorizeQuery w st q (effLimit o * 2) u with
    | .error msg => .error msg
    | .ok ms => .ok (semLoop st u o ms [])

/-- `semanticSearch` with its `catch` (any error yields `[]`). -/
def semanticSearch (w : ExternalWorld) (st : StoreState) (u : String) (q : String)
    (o : SearchOptions) : List SearchResult :=
  match semanticSearchE w st u q o with
  | .ok r => r
  | .error _ => []

/-- Tokenisation feeding the FTS5 query: words of length > 1
(`query.split(/\s+/).filter(word => word.length > 1)`). -/
def tokenizeQuery (q : String) : List String :=
  (splitWsStr q).filter (fun word => 1 < word.length)

/-- Position-normalised scoring of the FTS result rows:
`score: Math.max(0.1, 1.0 - (i / results.length))`. -/
def positionScored (total : Nat) : Nat → List EnvRow → List SearchResult
  | _, [] => []
  | i, r :: rest =>
    ⟨r.env, max (0.1 : ℚ) (1 - (i : ℚ) / (total : ℚ)), "keyword"⟩ ::
      positionScored total (i + 1) rest

/-- Row filter of the FTS join:
`ev.user_id = ?2 [AND ev.category = ?] [AND ev.service = ?] [AND ev.required = 1]`. -/
def kwRowKeep (u : String) (o : SearchOptions) (r : EnvRow) : Bool :=
  r.env.userId == u && !(optMismatch o.category r.env.category) &&
  !(optMismatch o.service r.env.service) && !(o.requiredOnly && !r.env.required)

/-- Body of the `try` block of `keywordSearch`: build the token disjunction,
return `[]` outright when it is empty, otherwise run the FTS statement
(`JOIN env_variables ... ORDER BY rank LIMIT 2 * limit`). -/
def keywordSearchBody (w : ExternalWorld) (st : StoreState) (u : String) (q : String)
    (o : SearchOptions) : Except Unit (List SearchResult) :=
  let tokens := tokenizeQuery q
  if tokens.isEmpty then .ok []
  else
    match w.ftsExec tokens with
    | .error e => .error e
    | .ok ids =>
      let rows := ((ids.filterMap (fun i => st.rows.find? (fun r => r.env.id == i))).filter
        (kwRowKeep u o)).take (effLimit o * 2)
      .ok (positionScored rows.length 0 rows)

/-- One LIKE disjunct: does word `wd` occur in any of the four lowered
columns of the row? -/
def likeRowMatches (ws : List String) (env : EnvVariable) : Bool :=
  ws.any (fun wd =>
    strContainsSub (lowerStr env.name) wd || strContainsSub (lowerStr env.description) wd ||
    strContainsSub (lowerStr env.service) wd ||
    strContainsSub (lowerStr (jsonArrayString env.keywords)) wd)

/-- Position-normalised scoring of the LIKE fallback:
`Math.max(0.1, 1.0 - (i / Math.max(results.length, 1)))`. -/
def likePositionScored (total : Nat) : Nat → List EnvRow → List SearchResult
  | _, [] => []
  | i, r :: rest =>
    ⟨r.env, max (0.1 : ℚ) (1 - (i : ℚ) / (max total 1 : ℚ)), "keyword"⟩ ::
      likePositionScored total (i + 1) rest

/-- `likeSearch`: lower-cased substring scan over name / description /
service / keywords, tenant-scoped, `LIMIT limit` (not doubled).  The LIKE
statement itself may fail (`likeOk`); `likeSearch` installs no handler, so
the error propagates to `search`'s `.catch`. -/
def likeSearchE (w : ExternalWorld) (st : StoreState) (u : String) (q : String)
    (o : SearchOptions) : Except Unit (List SearchResult) :=
  let ws := (splitWsStr (lowerStr q)).filter (fun wd => 1 < wd.length)
  if ws.isEmpty then .ok []
  else if w.likeOk then
    let rows := (st.rows.filter (fun r =>
      r.env.userId == u && likeRowMatches ws r.env &&
      !(optMismatch o.category r.env.category) && !(optMismatch o.service r.env.service) &&
      !(o.requiredOnly && !r.env.required))).take (effLimit o)
    .ok (likePositionScored rows.length 0 rows)
  else .error ()

/-- `keywordSearch`: FTS body with its `catch` falling back to `likeSearch`. -/
def keywordSearch (w : ExternalWorld) (st : StoreState) (u : String) (q : String)
    (o : SearchOptions) : Except Unit (List SearchResult) :=
  match keywordSearchBody w st u q o with
  | .ok r => .ok r
  | .error _ => likeSearchE w st u q o

/-- The keyword channel as consumed by `search`
(`this.keywordSearch(query, options).catch(() => [])`). -/
def keywordCaught (w : ExternalWorld) (st : StoreState) (u : String) (q : String)
    (o : SearchOptions) : List SearchResult :=
  match keywordSearch w st u q o with
  | .ok r => r
  | .error _ => []

/-! ### Merging and ranking (`search`) -/

/-- An entry of `scoreMap`: the record plus the `scores` array
`[semantic, keyword, boost]`. -/
structure MergeEntry where
  env : EnvVariable
  sem : ℚ
  kw : ℚ
  boost : ℚ
deriving Repr, DecidableEq

/-- `Map.set` on the insertion-ordered score map: replace the value in place
when the key exists, otherwise append. -/
def mapSet : List (String × MergeEntry) → String → MergeEntry →
    List (String × MergeEntry)
  | [], k, v => [(k, v)]
  | (k', v') :: rest, k, v =>
    if k' == k then (k, v) :: rest else (k', v') :: mapSet rest k v

/-- Keyword phase of the merge: mutate `scores[1]` of an existing entry, or
insert a keyword-only entry. -/
def mapUpdateKw (acc : List (String × MergeEntry)) (r : SearchResult) :
    List (String × MergeEntry) :=
  match acc with
  | [] => [(r.env.name, ⟨r.env, 0, r.score * 0.3, 0⟩)]
  | (k, e) :: rest =>
    if k == r.env.name then (k, { e with kw := r.score * 0.3 }) :: rest
    else (k, e) :: mapUpdateKw rest r

/-- Metadata boost: `+0.05` for `required`, `+0.05` for category
`ai_services`. -/
def addBoost (e : MergeEntry) : MergeEntry :=
  { e with boost :=
      (if e.env.required then (0.05 : ℚ) else 0) +
      (if e.env.category == "ai_services" then (0.05 : ℚ) else 0) }

/-- The fully populated `scoreMap` contents, in insertion order: semantic
results first (scores `[s*0.6, 0]`), then keyword results merged in
(`scores[1] = s*0.3`), then the boost appended to every entry. -/
def mergeEntries (semR kwR : List SearchResult) : List MergeEntry :=
  let m0 := semR.foldl (fun acc r => mapSet acc r.env.name ⟨r.env, r.score * 0.6, 0, 0⟩) []
  let m1 := kwR.foldl mapUpdateKw m0
  (m1.map (fun p => p.2)).map addBoost

/-- `scores.reduce((a, b) => a + b, 0)` and the uniform `matchType: 'hybrid'`
tag applied to every merged entry. -/
def toFinal (e : MergeEntry) : SearchResult :=
  ⟨e.env, e.sem + e.kw + e.boost, "hybrid"⟩

/-- The merged list before sorting — the "original insertion order" that a
stable sort preserves among ties. -/
def finalScored (semR kwR : List SearchResult) : List SearchResult :=
  (mergeEntries semR kwR).map toFinal

/-- Descending-score comparison used by `.sort((a, b) => b.score - a.score)`. -/
def descLe (a b : SearchResult) : Bool := decide (b.score ≤ a.score)

/-- `search`'s merge-and-rank on two channel outputs: score map, final
scores, stable descending sort, truncation to `limit`. -/
def searchMerge (semR kwR : List SearchResult) (o : SearchOptions) : List SearchResult :=
  (((finalScored semR kwR).mergeSort descLe).take (effLimit o))

/-- `search(query, options)`: both channels (run concurrently in the source;
their results compose purely) followed by the merge. -/
def searchOp (w : ExternalWorld) (st : StoreState) (u : String) (q : String)
    (o : SearchOptions) : List SearchResult :=
  searchMerge (semanticSearch w st u q o) (keywordCaught w st u q o) o

/-- `SELECT * FROM env_variables WHERE user_id = ?1 AND name = ?2`
(`getByName`, multi-tenant branch). -/
def getByName (st : StoreState) (u : String) (name : String) : Option EnvVariable :=
  (st.rows.find? (keyMatch u name)).map (fun r => r.env)

/-! ### Write path (`insertEnvVariable`) -/

/-- Caller-supplied record fields (an `EnvVariable` before the store assigns
`id` and `userId`). -/
structure EnvVarInput where
  name : String
  description : String
  category : String
  service : String
  required : Bool
  exampleVal : Option String
  keywords : List String
  relatedTo : List String
deriving Repr, DecidableEq

/-- Result of `insertEnvVariable`. -/
structure InsertResult where
  id : Nat
  indexed : Bool
deriving Repr, DecidableEq

/-- `enrichText`: name and category with underscores spaced out,
description, service and keywords, non-empty parts joined with `'. '`. -/
def enrichText (v : EnvVarInput) : String :=
  joinSep ". " (([underscoresToSpaces v.name, v.description,
    underscoresToSpaces v.category, v.service] ++ v.keywords).filter (fun s => !(s == "")))

/-- `ON CONFLICT(user_id, name) DO UPDATE SET ...` on the record columns:
replace the mutable columns, keep `id`, `user_id` and `name`. -/
def updEnv (v : EnvVarInput) (e : EnvVariable) : EnvVariable :=
  { e with
    description := v.description, category := v.category, service := v.service,
    required := v.required, exampleVal := v.exampleVal, keywords := v.keywords,
    relatedTo := v.relatedTo }

/-- The conflict update on a full row (`vector_id` / `indexed_at` untouched). -/
def updateRowFields (v : EnvVarInput) (r : EnvRow) : EnvRow :=
  { r with env := updEnv v r.env }

/-- A freshly inserted row (no vector yet). -/
def freshRow (id : Nat) (u : String) (v : EnvVarInput) : EnvRow :=
  ⟨⟨id, u, v.name, v.description, v.category, v.service, v.required,
    v.exampleVal, v.keywords, v.relatedTo⟩, none, none⟩

/-- Step 1 of `insertEnvVariable`: the `INSERT ... ON CONFLICT(user_id, name)
DO UPDATE ... RETURNING id` statement.  Returns the affected id, the new row
list and the new autoincrement counter. -/
def upsertMetadata (st : StoreState) (u : String) (v : EnvVarInput) :
    Nat × List EnvRow × Nat :=
  match st.rows.find? (keyMatch u v.name) with
  | some r0 =>
    (r0.env.id,
     st.rows.map (fun r => if keyMatch u v.name r then updateRowFields v r else r),
     st.nextId)
  | none =>
    (st.nextId, st.rows ++ [freshRow st.nextId u v], st.nextId + 1)

/-- `VECTORIZE.insert` contents on success: the vector id is deterministic
per record, so a re-index stores the entry under the same id. -/
def vectorizePut (vecs : List VectorizeVector) (v : VectorizeVector) :
    List VectorizeVector :=
  if vecs.any (fun x => x.id == v.id) then
    vecs.map (fun x => if x.id == v.id then v else x)
  else vecs ++ [v]

/-- Steps 3–6 of `insertEnvVariable` (the `try` block): embed the enriched
text, insert into Vectorize with the tenant tag, record `vector_id` /
`indexed_at` on the row and flip the indexing status to `indexed`.  Any
failure is reported as the thrown error message. -/
def embedAndIndex (w : ExternalWorld) (st : StoreState) (u : String) (v : EnvVarInput)
    (rid : Nat) : Except String StoreState :=
  match w.embed (enrichText v) with
  | .error msg => .error msg
  | .ok _ =>
    if w.vectorizeInsertOk then
      let vectorId := "env-" ++ u ++ "-" ++ toString rid
      .ok { st with
        vectors := vectorizePut st.vectors ⟨vectorId, some ⟨u, rid, v.name⟩⟩,
        rows := st.rows.map (fun r =>
          if r.env.id == rid then { r with vectorId := some vectorId, indexedAt := some w.now }
          else r),
        statusRows := st.statusRows.map (fun s =>
          if s.envVariableId == rid then
            { s with status := "indexed", indexedTimestamp := some w.now }
          else s) }
    else .error w.vectorizeInsertErr

/-- `insertEnvVariable` (multi-tenant branch): upsert the metadata row,
append a `processing` status row (a plain `INSERT` — `indexing_status` has
no uniqueness on `env_variable_id`), then embed and index synchronously; on
failure every status row of the record is flipped to `failed` with the error
message and the call still returns `{ id, indexed: false }`. -/
def insertEnvVariable (w : ExternalWorld) (st : StoreState) (u : String)
    (v : EnvVarInput) : InsertResult × StoreState :=
  let up := upsertMetadata st u v
  let rid := up.1
  let st1 : StoreState := { st with
    rows := up.2.1, nextId := up.2.2,
    statusRows := st.statusRows ++ [⟨rid, "processing", some w.now, none, none, 0⟩] }
  match embedAndIndex w st1 u v rid with
  | .ok st2 => (⟨rid, true⟩, st2)
  | .error msg =>
    (⟨rid, false⟩,
     { st1 with statusRows := st1.statusRows.map (fun s =>
        if s.envVariableId == rid then { s with status := "failed", errorMessage := some msg }
        else s) })

/-- At most one metadata row per `(user_id, name)` — the invariant provided
by the unique index `idx_env_user_name`. -/
def KeyUnique (st : StoreState) : Prop :=
  st.rows.Pairwise (fun a b => ¬(a.env.userId = b.env.userId ∧ a.env.name = b.env.name))

instance (st : StoreState) : Decidable (KeyUnique st) := by
  unfold KeyUnique; infer_instance

/-- Invariant carried through both fold phases of the score map. -/
def MergeInv (semR kwR : List SearchResult) (acc : List (String × MergeEntry)) : Prop :=
  ∀ p ∈ acc,
    ((∃ r ∈ semR, p.2.env = r.env) ∨ (∃ r ∈ kwR, p.2.env = r.env)) ∧
    (p.2.sem = 0 ∨ ∃ r ∈ semR, p.2.sem = r.score * 0.6) ∧
    (p.2.kw = 0 ∨ ∃ r ∈ kwR, p.2.kw = r.score * 0.3)

/-- The record projection of a row list. -/
def envList (rows : List EnvRow) : List EnvVariable := rows.map (fun r => r.env)

/-- The row rewrite applied to a status table when the record `rid` is
finalised with status `stat`, optionally setting the timestamp or the error
message. -/
def statusFinal (rid : Nat) (stat : String) (ts : Option Nat) (msg : Option String)
    (s : IndexingStatusRow) : IndexingStatusRow :=
  if s.envVariableId == rid then
    { s with
      status := stat,
      indexedTimestamp := ts.elim s.indexedTimestamp some,
      errorMessage := msg.elim s.errorMessage some }
  else s

/-- The freshly inserted `processing` status row. -/
def procRow (w : ExternalWorld) (rid : Nat) : IndexingStatusRow :=
  ⟨rid, "processing", some w.now, none, none, 0⟩

/-- Distinctness of `(userId, name)` keys between two records. -/
def NRel (a b : EnvVariable) : Prop := ¬(a.userId = b.userId ∧ a.name = b.name)

/-! ### Concrete fixtures for the closed instance theorems -/

/-- A stored record of tenant `tA`. -/
def sampleEnv : EnvVariable :=
  ⟨1, "tA", "STRIPE_SECRET_KEY", "Stripe payment processing secret", "payment",
   "Stripe", true, none, ["stripe", "payment"], []⟩

/-- A store holding `sampleEnv`, fully indexed. -/
def sampleState : StoreState :=
  ⟨[⟨sampleEnv, some "env-tA-1", some 100⟩],
   [⟨1, "indexed", some 1, some 2, none, 0⟩],
   [⟨"env-tA-1", some ⟨"tA", 1, "STRIPE_SECRET_KEY"⟩⟩], 2⟩

/-- Healthy collaborators: embedding succeeds, cosine scores are 1/2, the
FTS index reports row 1, LIKE statements execute. -/
def worldOk : ExternalWorld :=
  { embed := fun _ => .ok (), cosineScore := fun _ _ => 1/2,
    vectorizeQueryOk := true, vectorizeInsertOk := true,
    vectorizeInsertErr := "vectorize rejected the insert",
    ftsExec := fun _ => .ok [1], likeOk := true, now := 5 }

/-- The embedding provider raises on every call. -/
def worldEmbedDown : ExternalWorld :=
  { worldOk with embed := fun _ => .error "AI service down" }

/-- Embedding, FTS and the LIKE fallback all fail. -/
def worldAllDown : ExternalWorld :=
  { worldOk with
    embed := fun _ => .error "AI service down",
    ftsExec := fun _ => .error (), likeOk := false }

/-- The hybrid hit produced for `sampleEnv` under `worldOk`
(semantic 1/2 × 0.6 + lexical 1 × 0.3 + required boost 0.05). -/
def sampleResult : SearchResult := ⟨sampleEnv, 0.65, "hybrid"⟩

/-- An empty store. -/
def emptyState : StoreState := ⟨[], [], [], 1⟩

/-- Caller input matching `sampleEnv`. -/
def sampleInput : EnvVarInput :=
  ⟨"STRIPE_SECRET_KEY", "Stripe payment processing secret", "payment", "Stripe",
   true, none, ["stripe", "payment"], []⟩

/-- The same key with a different description. -/
def sampleInput2 : EnvVarInput :=
  { sampleInput with description := "rotated key for Stripe" }

/-- Sixty distinct records of tenant `u1`. -/
def wideEnv (i : Nat) : EnvVariable :=
  ⟨i + 1, "u1", "VAR" ++ toString (i + 1), "bulk record", "other", "Svc",
   false, none, [], []⟩

/-- A store holding the sixty records, none of them embedded. -/
def wideState : StoreState :=
  ⟨(List.range 60).map (fun i => ⟨wideEnv i, none, none⟩), [], [], 61⟩

/-- Embedding down, FTS matching all sixty rows in id order. -/
def worldWide : ExternalWorld :=
  { worldOk with
    embed := fun _ => .error "AI service down",
    ftsExec := fun _ => .ok ((List.range 60).map (fun i => i + 1)) }

/-- A record reachable only through the semantic channel. -/
def tieEnvX : EnvVariable :=
  ⟨1, "tA", "XVAR", "first record", "other", "Svc", false, none, [], []⟩

/-- A record reachable only through the lexical channel. -/
def tieEnvY : EnvVariable :=
  ⟨2, "tA", "YVAR", "second record", "other", "Svc", false, none, [], []⟩

/-- Both tie records stored, only `tieEnvX` embedded. -/
def tieState : StoreState :=
  ⟨[⟨tieEnvX, some "env-tA-1", some 1⟩, ⟨tieEnvY, none, none⟩], [],
   [⟨"env-tA-1", some ⟨"tA", 1, "XVAR"⟩⟩], 3⟩

/-- FTS reports only row 2, so the two channels score different records:
1/2 × 0.6 = 0.3 semantically for X, 1 × 0.3 = 0.3 lexically for Y — a tie. -/
def worldTie : ExternalWorld := { worldOk with ftsExec := fun _ => .ok [2] }

/-- The tied hits, in pre-sort (channel insertion) order. -/
def tieResX : SearchResult := ⟨tieEnvX, 0.3, "hybrid"⟩

/-- The second tied hit. -/
def tieResY : SearchResult := ⟨tieEnvY, 0.3, "hybrid"⟩

/-! ### Provenance lemmas for the two search channels -/

theorem semLoop_mem (st : StoreState) (u : String) (o : SearchOptions) :
    ∀ (ms : List VectorizeMatch) (acc : List SearchResult),
      ∀ r ∈ semLoop st u o ms acc,
        r ∈ acc ∨ ∃ m ∈ ms, ∃ envId, extractEnvId m = some envId ∧
          ∃ env, getById st u envId = some env ∧ r = ⟨env, m.score, "semantic"⟩ := by
  intro ms
  induction ms with
  | nil =>
    intro acc r hr
    simp only [semLoop, List.mem_reverse] at hr
    exact Or.inl hr
  | cons m rest ih =>
    intro acc r hr
    rcases hid : extractEnvId m with _ | envId <;>
      simp only [semLoop, hid] at hr
    · rcases ih acc r hr with h | ⟨m', hm', rest'⟩
      · exact Or.inl h
      · exact Or.inr ⟨m', List.mem_cons_of_mem _ hm', rest'⟩
    · rcases hby : getById st u envId with _ | env <;>
        simp only [hby] at hr
      · rcases ih acc r hr with h | ⟨m', hm', rest'⟩
        · exact Or.inl h
        · exact Or.inr ⟨m', List.mem_cons_of_mem _ hm', rest'⟩
      · by_cases hrej : semReject o env m.score
        · simp only [hrej, if_true] at hr
          rcases ih acc r hr with h | ⟨m', hm', rest'⟩
          · exact Or.inl h
          · exact Or.inr ⟨m', List.mem_cons_of_mem _ hm', rest'⟩
        · simp only [hrej, if_false, Bool.false_eq_true] at hr
          by_cases hlim : effLimit o ≤ (SearchResult.mk env m.score "semantic" :: acc).length
          · rw [if_pos hlim] at hr
            rw [List.mem_reverse, List.mem_cons] at hr
            rcases hr with h | h
            · exact Or.inr ⟨m, List.mem_cons_self _ _,
                envId, hid, env, hby, h⟩
            · exact Or.inl h
          · rw [if_neg hlim] at hr
            rcases ih _ r hr with h | ⟨m', hm', rest'⟩
            · rw [List.mem_cons] at h
              rcases h with h | h
              · exact Or.inr ⟨m, List.mem_cons_self _ _, envId, hid, env, hby, h⟩
              · exact Or.inl h
            · exact Or.inr ⟨m', List.mem_cons_of_mem _ hm', rest'⟩

theorem getById_some (st : StoreState) (u : String) (id : Nat) (env : EnvVariable)
    (h : getById st u id = some env) :
    env.userId = u ∧ ∃ row ∈ st.rows, env = row.env := by
  unfold getById at h
  rcases Option.map_eq_some'.mp h with ⟨row, hfind, henv⟩
  have hp := List.find?_some hfind
  have hmem := List.mem_of_find?_eq_some hfind
  simp only [Bool.and_eq_true, beq_iff_eq] at hp
  exact ⟨henv ▸ hp.2, row, hmem, henv.symm⟩

theorem vectorizeQuery_mem (w : ExternalWorld) (st : StoreState) (q : String)
    (topK : Nat) (u : String) (ms : List VectorizeMatch)
    (h : vectorizeQuery w st q topK u = .ok ms) :
    ∀ m ∈ ms, ∃ v ∈ st.vectors, m.score = w.cosineScore q v := by
  intro m hm
  unfold vectorizeQuery at h
  by_cases hok : w.vectorizeQueryOk
  · rw [if_pos hok] at h
    injection h with h
    subst h
    rcases List.mem_map.mp hm with ⟨v, hv, hmk⟩
    have hv' : v ∈ st.vectors := by
      have h1 := List.mem_of_mem_take hv
      have h2 := (List.mergeSort_perm _ _).mem_iff.mp h1
      exact List.mem_of_mem_filter h2
    exact ⟨v, hv', by rw [← hmk]⟩
  · rw [if_neg hok] at h
    exact absurd h (by simp)

theorem semanticSearch_mem (w : ExternalWorld) (st : StoreState) (u : String)
    (q : String) (o : SearchOptions) :
    ∀ r ∈ semanticSearch w st u q o,
      r.env.userId = u ∧ (∃ v ∈ st.vectors, r.score = w.cosineScore q v) ∧
      r.matchType = "semantic" ∧ (∃ row ∈ st.rows, r.env = row.env) := by
  intro r hr
  unfold semanticSearch at hr
  rcases hE : semanticSearchE w st u q o with msg | rs <;>
    simp only [hE] at hr
  · simp at hr
  · unfold semanticSearchE at hE
    rcases hemb : w.embed q with msg | u' <;> simp only [hemb] at hE
    · exact absurd hE (by simp)
    · rcases hvq : vectorizeQuery w st q (effLimit o * 2) u with msg | ms <;>
        simp only [hvq] at hE
      · exact absurd hE (by simp)
      · injection hE with hE
        subst hE
        rcases semLoop_mem st u o ms [] r hr with h | ⟨m, hm, envId, hid, env, hby, hmk⟩
        · simp at h
        · subst hmk
          obtain ⟨huid, row, hrow, henv⟩ := getById_some st u envId env hby
          exact ⟨huid, vectorizeQuery_mem w st q _ u ms hvq m hm, rfl, row, hrow, henv⟩

theorem positionScored_mem (total : Nat) :
    ∀ (i : Nat) (rows : List EnvRow), ∀ r ∈ positionScored total i rows,
      (∃ row ∈ rows, r.env = row.env) ∧ r.matchType = "keyword" ∧
      (0.1 : ℚ) ≤ r.score ∧ r.score ≤ 1 := by
  intro i rows
  induction rows generalizing i with
  | nil => intro r hr; simp [positionScored] at hr
  | cons row rest ih =>
    intro r hr
    simp only [positionScored, List.mem_cons] at hr
    rcases hr with h | h
    · subst h
      refine ⟨⟨row, List.mem_cons_self _ _, rfl⟩, rfl, le_max_left _ _, ?_⟩
      apply max_le (by norm_num)
      have : (0 : ℚ) ≤ (i : ℚ) / (total : ℚ) := by positivity
      linarith
    · obtain ⟨⟨row', h1, h2⟩, h3, h4⟩ := ih (i + 1) r h
      exact ⟨⟨row', List.mem_cons_of_mem _ h1, h2⟩, h3, h4⟩

theorem likePositionScored_mem (total : Nat) :
    ∀ (i : Nat) (rows : List EnvRow), ∀ r ∈ likePositionScored total i rows,
      (∃ row ∈ rows, r.env = row.env) ∧ r.matchType = "keyword" ∧
      (0.1 : ℚ) ≤ r.score ∧ r.score ≤ 1 := by
  intro i rows
  induction rows generalizing i with
  | nil => intro r hr; simp [likePositionScored] at hr
  | cons row rest ih =>
    intro r hr
    simp only [likePositionScored, List.mem_cons] at hr
    rcases hr with h | h
    · subst h
      refine ⟨⟨row, List.mem_cons_self _ _, rfl⟩, rfl, le_max_left _ _, ?_⟩
      apply max_le (by norm_num)
      have : (0 : ℚ) ≤ (i : ℚ) / (max (total : ℚ) 1) := by positivity
      linarith
    · obtain ⟨⟨row', h1, h2⟩, h3, h4⟩ := ih (i + 1) r h
      exact ⟨⟨row', List.mem_cons_of_mem _ h1, h2⟩, h3, h4⟩

theorem likeSearchE_ok_mem (w : ExternalWorld) (st : StoreState) (u : String)
    (q : String) (o : SearchOptions) (rs : List SearchResult)
    (h : likeSearchE w st u q o = .ok rs) :
    ∀ r ∈ rs, r.env.userId = u ∧ (0.1 : ℚ) ≤ r.score ∧ r.score ≤ 1 ∧
      r.matchType = "keyword" := by
  intro r hr
  unfold likeSearchE at h
  by_cases hws : ((splitWsStr (lowerStr q)).filter (fun wd => 1 < wd.length)).isEmpty
  · rw [if_pos hws] at h
    injection h with h; subst h; simp at hr
  · rw [if_neg hws] at h
    by_cases hlk : w.likeOk
    · rw [if_pos hlk] at h
      injection h with h
      subst h
      obtain ⟨⟨row, h1, h2⟩, h3, h4, h5⟩ := likePositionScored_mem _ 0 _ r hr
      have h6 := List.mem_of_mem_take h1
      have h7 := List.of_mem_filter h6
      simp only [Bool.and_eq_true, beq_iff_eq] at h7
      exact ⟨h2 ▸ h7.1.1.1.1, h4, h5, h3⟩
    · rw [if_neg hlk] at h
      exact absurd h (by simp)

theorem keywordSearch_ok_mem (w : ExternalWorld) (st : StoreState) (u : String)
    (q : String) (o : SearchOptions) (rs : List SearchResult)
    (h : keywordSearch w st u q o = .ok rs) :
    ∀ r ∈ rs, r.env.userId = u ∧ (0.1 : ℚ) ≤ r.score ∧ r.score ≤ 1 ∧
      r.matchType = "keyword" := by
  intro r hr
  unfold keywordSearch at h
  rcases hb : keywordSearchBody w st u q o with e | rs'
  · rw [hb] at h
    exact likeSearchE_ok_mem w st u q o rs h r hr
  · rw [hb] at h
    injection h with h
    subst h
    unfold keywordSearchBody at hb
    by_cases htk : (tokenizeQuery q).isEmpty
    · rw [if_pos htk] at hb
      injection hb with hb; subst hb; simp at hr
    · rw [if_neg htk] at hb
      rcases hfts : w.ftsExec (tokenizeQuery q) with e | ids
      · rw [hfts] at hb; exact absurd hb (by simp)
      · rw [hfts] at hb
        injection hb with hb
        subst hb
        obtain ⟨⟨row, h1, h2⟩, h3, h4, h5⟩ := positionScored_mem _ 0 _ r hr
        have h6 := List.mem_of_mem_take h1
        have h7 := List.of_mem_filter h6
        unfold kwRowKeep at h7
        simp only [Bool.and_eq_true, beq_iff_eq] at h7
        exact ⟨h2 ▸ h7.1.1.1, h4, h5, h3⟩

theorem keywordCaught_mem (w : ExternalWorld) (st : StoreState) (u : String)
    (q : String) (o : SearchOptions) :
    ∀ r ∈ keywordCaught w st u q o,
      r.env.userId = u ∧ (0.1 : ℚ) ≤ r.score ∧ r.score ≤ 1 ∧
      r.matchType = "keyword" := by
  intro r hr
  unfold keywordCaught at hr
  rcases hk : keywordSearch w st u q o with e | rs
  · rw [hk] at hr; simp at hr
  · rw [hk] at hr
    exact keywordSearch_ok_mem w st u q o rs hk r hr

/-! ### Provenance lemmas for the score map merge -/

theorem mapSet_mem (k : String) (v : MergeEntry) :
    ∀ acc, ∀ p ∈ mapSet acc k v, p = (k, v) ∨ p ∈ acc := by
  intro acc
  induction acc with
  | nil => intro p hp; simp only [mapSet, List.mem_singleton] at hp; exact Or.inl hp
  | cons q rest ih =>
    intro p hp
    rcases q with ⟨k', v'⟩
    simp only [mapSet] at hp
    by_cases hk : k' == k
    · simp only [hk, if_true, List.mem_cons] at hp
      rcases hp with h | h
      · exact Or.inl h
      · exact Or.inr (List.mem_cons_of_mem _ h)
    · simp only [hk, if_false, Bool.false_eq_true, List.mem_cons] at hp
      rcases hp with h | h
      · exact Or.inr (h ▸ List.mem_cons_self _ _)
      · rcases ih p h with h' | h'
        · exact Or.inl h'
        · exact Or.inr (List.mem_cons_of_mem _ h')

theorem mapUpdateKw_mem (r : SearchResult) :
    ∀ acc, ∀ p ∈ mapUpdateKw acc r,
      (∃ q ∈ acc, p.2.env = q.2.env ∧ p.2.sem = q.2.sem ∧
        (p.2.kw = q.2.kw ∨ p.2.kw = r.score * 0.3)) ∨
      (p.2.env = r.env ∧ p.2.sem = 0 ∧ p.2.kw = r.score * 0.3) := by
  intro acc
  induction acc with
  | nil =>
    intro p hp
    simp only [mapUpdateKw, List.mem_singleton] at hp
    subst hp
    exact Or.inr ⟨rfl, rfl, rfl⟩
  | cons q rest ih =>
    intro p hp
    rcases q with ⟨k, e⟩
    simp only [mapUpdateKw] at hp
    by_cases hk : k == r.env.name
    · simp only [hk, if_true, List.mem_cons] at hp
      rcases hp with h | h
      · subst h
        exact Or.inl ⟨(k, e), List.mem_cons_self _ _, rfl, rfl, Or.inr rfl⟩
      · exact Or.inl ⟨p, List.mem_cons_of_mem _ h, rfl, rfl, Or.inl rfl⟩
    · simp only [hk, if_false, Bool.false_eq_true, List.mem_cons] at hp
      rcases hp with h | h
      · subst h
        exact Or.inl ⟨(k, e), List.mem_cons_self _ _, rfl, rfl, Or.inl rfl⟩
      · rcases ih p h with ⟨q', hq', hrest⟩ | h'
        · exact Or.inl ⟨q', List.mem_cons_of_mem _ hq', hrest⟩
        · exact Or.inr h'

theorem mergeEntries_mem (semR kwR : List SearchResult) :
    ∀ e ∈ mergeEntries semR kwR,
      ((∃ r ∈ semR, e.env = r.env) ∨ (∃ r ∈ kwR, e.env = r.env)) ∧
      (e.sem = 0 ∨ ∃ r ∈ semR, e.sem = r.score * 0.6) ∧
      (e.kw = 0 ∨ ∃ r ∈ kwR, e.kw = r.score * 0.3) ∧
      e.boost = (if e.env.required then (0.05 : ℚ) else 0) +
        (if e.env.category == "ai_services" then (0.05 : ℚ) else 0) := by
  have h0 : MergeInv semR kwR
      (semR.foldl (fun acc r => mapSet acc r.env.name ⟨r.env, r.score * 0.6, 0, 0⟩) []) := by
    apply List.foldlRecOn
    · intro p hp; simp at hp
    · intro acc hacc r hr p hp
      rcases mapSet_mem _ _ acc p hp with h | h
      · subst h
        exact ⟨Or.inl ⟨r, hr, rfl⟩, Or.inr ⟨r, hr, rfl⟩, Or.inl rfl⟩
      · exact hacc p h
  have h1 : MergeInv semR kwR
      (kwR.foldl mapUpdateKw
        (semR.foldl (fun acc r => mapSet acc r.env.name ⟨r.env, r.score * 0.6, 0, 0⟩) [])) := by
    apply List.foldlRecOn
    · exact h0
    · intro acc hacc r hr p hp
      rcases mapUpdateKw_mem r acc p hp with ⟨q, hq, henv, hsem, hkw⟩ | ⟨henv, hsem, hkw⟩
      · obtain ⟨hqenv, hqsem, hqkw⟩ := hacc q hq
        refine ⟨henv ▸ hqenv, hsem ▸ hqsem, ?_⟩
        rcases hkw with h | h
        · exact h ▸ hqkw
        · exact Or.inr ⟨r, hr, h⟩
      · exact ⟨Or.inr ⟨r, hr, henv⟩, Or.inl hsem, Or.inr ⟨r, hr, hkw⟩⟩
  intro e he
  unfold mergeEntries at he
  rcases List.mem_map.mp he with ⟨e0, he0, hb⟩
  rcases List.mem_map.mp he0 with ⟨p, hp, hsnd⟩
  obtain ⟨henv, hsem, hkw⟩ := h1 p hp
  subst hb
  subst hsnd
  exact ⟨henv, hsem, hkw, rfl⟩

theorem searchOp_mem (w : ExternalWorld) (st : StoreState) (u : String) (q : String)
    (o : SearchOptions) :
    ∀ res ∈ searchOp w st u q o,
      ∃ e ∈ mergeEntries (semanticSearch w st u q o) (keywordCaught w st u q o),
        res = toFinal e := by
  intro res hres
  unfold searchOp searchMerge at hres
  have h1 := List.mem_of_mem_take hres
  have h2 := (List.mergeSort_perm _ _).mem_iff.mp h1
  unfold finalScored at h2
  rcases List.mem_map.mp h2 with ⟨e, he, hf⟩
  exact ⟨e, he, hf.symm⟩

theorem searchOp_userId (w : ExternalWorld) (st : StoreState) (u : String) (q : String)
    (o : SearchOptions) :
    ∀ res ∈ searchOp w st u q o, res.env.userId = u := by
  intro res hres
  obtain ⟨e, he, hf⟩ := searchOp_mem w st u q o res hres
  obtain ⟨henv, -, -, -⟩ := mergeEntries_mem _ _ e he
  have hre : res.env = e.env := by rw [hf]; rfl
  rw [hre]
  rcases henv with ⟨r, hr, h⟩ | ⟨r, hr, h⟩
  · rw [h]; exact (semanticSearch_mem w st u q o r hr).1
  · rw [h]; exact (keywordCaught_mem w st u q o r hr).1

theorem semanticSearch_embed_fail (w : ExternalWorld) (st : StoreState) (u : String)
    (q : String) (o : SearchOptions) (h : (w.embed q).isOk = false) :
    semanticSearch w st u q o = [] := by
  rcases hemb : w.embed q with msg | u'
  · unfold semanticSearch semanticSearchE
    rw [hemb]
  · rw [hemb] at h; simp [Except.isOk, Except.toBool] at h

/-! ### Claim theorems for the read path -/

/-- C1: for all tenants A and B with A ≠ B and every record R belonging to
tenant A, `search` and `getByName` invoked under tenant B never return R,
regardless of the query text, the looked-up name, the options, the store
contents or the behaviour of the external services. -/
theorem tenant_isolation (w : ExternalWorld) (st : StoreState) (q : String)
    (o : SearchOptions) (A B nm : String) (R : EnvVariable)
    (hAB : A ≠ B) (hR : R.userId = A) :
    (∀ res ∈ searchOp w st B q o, res.env ≠ R) ∧
    (∀ e, getByName st B nm = some e → e ≠ R) := by
  constructor
  · intro res hres heq
    have hu := searchOp_userId w st B q o res hres
    rw [heq, hR] at hu
    exact hAB hu
  · intro e he heq
    unfold getByName at he
    rcases Option.map_eq_some'.mp he with ⟨row, hfind, henv⟩
    have hp := List.find?_some hfind
    simp only [keyMatch, keyE, Bool.and_eq_true, beq_iff_eq] at hp
    have hu : e.userId = B := henv ▸ hp.1
    rw [heq, hR] at hu
    exact hAB hu

/-- C2 (amended): every result returned by `search` carries the tag
`matchType = "hybrid"`, regardless of which channels contributed — the merge
in `search` overwrites the per-channel tags unconditionally. -/
theorem search_matchType_always_hybrid (w : ExternalWorld) (st : StoreState)
    (u : String) (q : String) (o : SearchOptions) :
    ∀ res ∈ searchOp w st u q o, res.matchType = "hybrid" := by
  intro res hres
  obtain ⟨e, -, hf⟩ := searchOp_mem w st u q o res hres
  rw [hf]; rfl

/-- C3 (amended): `search` returns at most `limit` results, where an absent
(or zero) `limit` option defaults to 10; `search` itself applies no 50 cap. -/
theorem search_result_count_bound (w : ExternalWorld) (st : StoreState)
    (u : String) (q : String) (o : SearchOptions) :
    (searchOp w st u q o).length ≤ effLimit o ∧
    (o.limit = none → (searchOp w st u q o).length ≤ 10) := by
  have h : (searchOp w st u q o).length ≤ effLimit o := by
    unfold searchOp searchMerge
    exact List.length_take_le _ _
  refine ⟨h, fun hnone => ?_⟩
  have : effLimit o = 10 := by unfold effLimit; rw [hnone]
  rw [this] at h
  exact h

/-- C4: assuming the vector index reports raw cosine scores in [0, 1], every
`search` result decomposes as semantic + lexical + boost with the semantic
contribution in [0, 0.6], a nonzero lexical contribution in [0.03, 0.3], a
boost in \x7b0, 0.05, 0.10\x7d, and a total of at most 1. -/
theorem search_score_bounds (w : ExternalWorld) (st : StoreState) (u : String)
    (q : String) (o : SearchOptions)
    (hcos : ∀ v ∈ st.vectors, 0 ≤ w.cosineScore q v ∧ w.cosineScore q v ≤ 1) :
    ∀ res ∈ searchOp w st u q o,
      ∃ e ∈ mergeEntries (semanticSearch w st u q o) (keywordCaught w st u q o),
        res.env = e.env ∧ res.score = e.sem + e.kw + e.boost ∧
        0 ≤ e.sem ∧ e.sem ≤ 0.6 ∧
        (e.kw ≠ 0 → 0.03 ≤ e.kw ∧ e.kw ≤ 0.3) ∧
        (e.boost = 0 ∨ e.boost = 0.05 ∨ e.boost = 0.1) ∧
        res.score ≤ 1 := by
  intro res hres
  obtain ⟨e, he, hf⟩ := searchOp_mem w st u q o res hres
  obtain ⟨henv, hsem, hkw, hboost⟩ := mergeEntries_mem _ _ e he
  have hsemB : 0 ≤ e.sem ∧ e.sem ≤ 0.6 := by
    rcases hsem with h | ⟨r, hr, h⟩
    · rw [h]; norm_num
    · obtain ⟨-, ⟨v, hv, hs⟩, -, -⟩ := semanticSearch_mem w st u q o r hr
      obtain ⟨h0, h1⟩ := hcos v hv
      rw [h, hs]
      constructor <;> nlinarith
  have hkwB : 0 ≤ e.kw ∧ e.kw ≤ 0.3 ∧ (e.kw ≠ 0 → 0.03 ≤ e.kw) := by
    rcases hkw with h | ⟨r, hr, h⟩
    · rw [h]; norm_num
    · obtain ⟨-, h1, h2, -⟩ := keywordCaught_mem w st u q o r hr
      rw [h]
      refine ⟨by nlinarith, by nlinarith, fun _ => by nlinarith⟩
  have hboostB : e.boost = 0 ∨ e.boost = 0.05 ∨ e.boost = 0.1 := by
    rw [hboost]
    by_cases h1 : e.env.required <;> by_cases h2 : e.env.category == "ai_services" <;>
      (simp [h1, h2]; try norm_num)
  have hscore : res.score = e.sem + e.kw + e.boost := by rw [hf]; rfl
  have hboostLe : e.boost ≤ 0.1 := by
    rcases hboostB with h | h | h <;> rw [h] <;> norm_num
  refine ⟨e, he, by rw [hf]; rfl, hscore, hsemB.1, hsemB.2,
    fun hne => ⟨hkwB.2.2 hne, hkwB.2.1⟩, hboostB, ?_⟩
  rw [hscore]
  have := hsemB.2
  have := hkwB.2.1
  linarith

theorem searchMerge_nil (o : SearchOptions) : searchMerge [] [] o = [] := by
  unfold searchMerge finalScored mergeEntries
  simp

/-- C5: `search` is total on well-formed input: an embedding failure
degrades it to the lexical channel alone, an FTS failure degrades the
lexical channel to the LIKE fallback, and failure of embedding, FTS and the
fallback together yields the empty list rather than an error. -/
theorem search_degradation (w : ExternalWorld) (st : StoreState) (u : String)
    (q : String) (o : SearchOptions) :
    ((w.embed q).isOk = false →
      searchOp w st u q o = searchMerge [] (keywordCaught w st u q o) o) ∧
    (tokenizeQuery q ≠ [] → (w.ftsExec (tokenizeQuery q)).isOk = false →
      keywordSearch w st u q o = likeSearchE w st u q o) ∧
    ((w.embed q).isOk = false → (w.ftsExec (tokenizeQuery q)).isOk = false →
      w.likeOk = false → searchOp w st u q o = []) := by
  have hkwBody : ∀ (hne : tokenizeQuery q ≠ [])
      (hfts : (w.ftsExec (tokenizeQuery q)).isOk = false),
      keywordSearch w st u q o = likeSearchE w st u q o := by
    intro hne hfts
    have hempty : (tokenizeQuery q).isEmpty = false := by
      rw [Bool.eq_false_iff]
      intro hc
      exact hne (List.isEmpty_iff.mp hc)
    rcases hf : w.ftsExec (tokenizeQuery q) with e | ids
    · unfold keywordSearch keywordSearchBody
      simp only [hempty, Bool.false_eq_true, if_false, hf]
    · rw [hf] at hfts; simp [Except.isOk, Except.toBool] at hfts
  refine ⟨fun hemb => ?_, hkwBody, fun hemb hfts hlike => ?_⟩
  · unfold searchOp
    rw [semanticSearch_embed_fail w st u q o hemb]
  · have hsem := semanticSearch_embed_fail w st u q o hemb
    have hkw : keywordCaught w st u q o = [] := by
      unfold keywordCaught
      by_cases hne : tokenizeQuery q = []
      · unfold keywordSearch keywordSearchBody
        simp [hne]
      · rw [hkwBody hne hfts]
        have hlE : likeSearchE w st u q o = Except.error () ∨
            likeSearchE w st u q o = Except.ok [] := by
          unfold likeSearchE
          by_cases hws : ((splitWsStr (lowerStr q)).filter (fun wd => 1 < wd.length)).isEmpty
          · simp only [hws, if_true]
            exact Or.inr trivial
          · simp only [hws, Bool.false_eq_true, if_false, hlike]
            exact Or.inl trivial
        rcases hlE with h | h <;> simp [h]
    unfold searchOp
    rw [hsem, hkw]
    exact searchMerge_nil o

/-- C8: every `search` result's score is the sum of its semantic, lexical
and boost contributions; the returned list is sorted descending by score;
ties keep the pre-sort (insertion) order because the sort is stable; and the
output is the sorted list truncated to the limit. -/
theorem search_ordering (w : ExternalWorld) (st : StoreState) (u : String)
    (q : String) (o : SearchOptions) :
    (∀ res ∈ searchOp w st u q o,
      ∃ e ∈ mergeEntries (semanticSearch w st u q o) (keywordCaught w st u q o),
        res.env = e.env ∧ res.score = e.sem + e.kw + e.boost) ∧
    (searchOp w st u q o).Pairwise (fun a b => b.score ≤ a.score) ∧
    (∀ a b : SearchResult,
      List.Sublist [a, b]
        (finalScored (semanticSearch w st u q o) (keywordCaught w st u q o)) →
      a.score = b.score →
      List.Sublist [a, b]
        ((finalScored (semanticSearch w st u q o)
          (keywordCaught w st u q o)).mergeSort descLe)) ∧
    searchOp w st u q o =
      ((finalScored (semanticSearch w st u q o)
        (keywordCaught w st u q o)).mergeSort descLe).take (effLimit o) := by
  have htrans : ∀ a b c : SearchResult, descLe a b → descLe b c → descLe a c := by
    intro a b c hab hbc
    simp only [descLe, decide_eq_true_eq] at *
    exact le_trans hbc hab
  have htotal : ∀ a b : SearchResult, descLe a b || descLe b a := by
    intro a b
    simp only [descLe, Bool.or_eq_true, decide_eq_true_eq]
    exact le_total b.score a.score
  refine ⟨?_, ?_, ?_, rfl⟩
  · intro res hres
    obtain ⟨e, he, hf⟩ := searchOp_mem w st u q o res hres
    exact ⟨e, he, by rw [hf]; rfl, by rw [hf]; rfl⟩
  · have hp : ((finalScored (semanticSearch w st u q o)
        (keywordCaught w st u q o)).mergeSort descLe).Pairwise
        (fun a b => descLe a b = true) :=
      List.sorted_mergeSort htrans htotal _
    have hsub : List.Sublist (searchOp w st u q o)
        ((finalScored (semanticSearch w st u q o)
          (keywordCaught w st u q o)).mergeSort descLe) :=
      List.take_sublist _ _
    exact (hp.sublist hsub).imp (fun h => by
      simpa [descLe, decide_eq_true_eq] using h)
  · intro a b hsub heq
    apply List.pair_sublist_mergeSort htrans htotal _ hsub
    simp only [descLe, decide_eq_true_eq, heq, le_refl]

/-- C10: when the query contains no whitespace-separated token longer than
one character, the lexical channel returns `[]` without consulting the FTS
index, and `search` reduces to the semantic channel alone. -/
theorem short_tokens_skip_lexical (w : ExternalWorld) (st : StoreState)
    (u : String) (q : String) (o : SearchOptions) (h : tokenizeQuery q = []) :
    keywordSearch w st u q o = .ok [] ∧
    searchOp w st u q o = searchMerge (semanticSearch w st u q o) [] o := by
  have hbody : keywordSearch w st u q o = .ok [] := by
    unfold keywordSearch keywordSearchBody
    rw [h]
    simp
  refine ⟨hbody, ?_⟩
  unfold searchOp keywordCaught
  rw [hbody]

/-! ### Structural lemmas for the write path -/

theorem keyE_updEnv (u nm : String) (v : EnvVarInput) (e : EnvVariable) :
    keyE u nm (updEnv v e) = keyE u nm e := rfl

theorem envList_find_key (st : StoreState) (u nm : String) :
    (envList st.rows).find? (keyE u nm) =
      (st.rows.find? (keyMatch u nm)).map (fun r => r.env) := by
  unfold envList
  rw [List.find?_map]
  rfl

theorem rows_filter_env_length (rows : List EnvRow) (p : EnvVariable → Bool) :
    ((envList rows).filter p).length = (rows.filter (fun r => p r.env)).length := by
  unfold envList
  rw [List.filter_map, List.length_map]
  rfl

theorem upsertMetadata_conflict (st : StoreState) (u : String) (v : EnvVarInput)
    (r0 : EnvRow) (h : st.rows.find? (keyMatch u v.name) = some r0) :
    (upsertMetadata st u v).1 = r0.env.id ∧
    envList (upsertMetadata st u v).2.1 =
      (envList st.rows).map (fun e => if keyE u v.name e then updEnv v e else e) := by
  unfold upsertMetadata
  rw [h]
  refine ⟨rfl, ?_⟩
  unfold envList
  rw [List.map_map, List.map_map]
  apply List.map_congr_left
  intro r _
  by_cases hk : keyE u v.name r.env
  · simp only [Function.comp, keyMatch, hk, if_true]
    rfl
  · simp only [Function.comp, keyMatch, hk, Bool.false_eq_true, if_false]

theorem upsertMetadata_fresh (st : StoreState) (u : String) (v : EnvVarInput)
    (h : st.rows.find? (keyMatch u v.name) = none) :
    (upsertMetadata st u v).1 = st.nextId ∧
    envList (upsertMetadata st u v).2.1 =
      envList st.rows ++ [(freshRow st.nextId u v).env] := by
  unfold upsertMetadata
  rw [h]
  exact ⟨rfl, by unfold envList; rw [List.map_append]; rfl⟩

theorem insert_eq_embedFail (w : ExternalWorld) (st : StoreState) (u : String)
    (v : EnvVarInput) (msg : String) (hemb : w.embed (enrichText v) = .error msg) :
    insertEnvVariable w st u v =
      (⟨(upsertMetadata st u v).1, false⟩,
       { rows := (upsertMetadata st u v).2.1, nextId := (upsertMetadata st u v).2.2,
         vectors := st.vectors,
         statusRows := (st.statusRows ++ [procRow w (upsertMetadata st u v).1]).map
           (statusFinal (upsertMetadata st u v).1 "failed" none (some msg)) }) := by
  unfold insertEnvVariable embedAndIndex
  rw [hemb]
  rfl

theorem insert_eq_vecFail (w : ExternalWorld) (st : StoreState) (u : String)
    (v : EnvVarInput) (uu : Unit) (hemb : w.embed (enrichText v) = .ok uu)
    (hvi : w.vectorizeInsertOk = false) :
    insertEnvVariable w st u v =
      (⟨(upsertMetadata st u v).1, false⟩,
       { rows := (upsertMetadata st u v).2.1, nextId := (upsertMetadata st u v).2.2,
         vectors := st.vectors,
         statusRows := (st.statusRows ++ [procRow w (upsertMetadata st u v).1]).map
           (statusFinal (upsertMetadata st u v).1 "failed" none
             (some w.vectorizeInsertErr)) }) := by
  unfold insertEnvVariable embedAndIndex
  rw [hemb, hvi]
  rfl

theorem insert_eq_ok (w : ExternalWorld) (st : StoreState) (u : String)
    (v : EnvVarInput) (uu : Unit) (hemb : w.embed (enrichText v) = .ok uu)
    (hvi : w.vectorizeInsertOk = true) :
    insertEnvVariable w st u v =
      (⟨(upsertMetadata st u v).1, true⟩,
       { rows := (upsertMetadata st u v).2.1.map (fun r =>
           if r.env.id == (upsertMetadata st u v).1 then
             { r with
               vectorId := some ("env-" ++ u ++ "-" ++ toString (upsertMetadata st u v).1),
               indexedAt := some w.now }
           else r),
         nextId := (upsertMetadata st u v).2.2,
         vectors := vectorizePut st.vectors
           ⟨"env-" ++ u ++ "-" ++ toString (upsertMetadata st u v).1,
            some ⟨u, (upsertMetadata st u v).1, v.name⟩⟩,
         statusRows := (st.statusRows ++ [procRow w (upsertMetadata st u v).1]).map
           (statusFinal (upsertMetadata st u v).1 "indexed" (some w.now) none) }) := by
  unfold insertEnvVariable embedAndIndex
  rw [hemb, hvi]
  rfl

/-- What one `insertEnvVariable` call does to the state, factored so that
every write-path property can reuse it: the returned id is the upserted
row's id, the record list is the metadata upsert's record list, and the
status table is the old table plus the fresh `processing` row, all rows of
the affected record rewritten to the final status. -/
theorem insert_shape (w : ExternalWorld) (st : StoreState) (u : String) (v : EnvVarInput) :
    (insertEnvVariable w st u v).1.id = (upsertMetadata st u v).1 ∧
    envList (insertEnvVariable w st u v).2.rows = envList (upsertMetadata st u v).2.1 ∧
    ∃ upd : IndexingStatusRow → IndexingStatusRow,
      (insertEnvVariable w st u v).2.statusRows =
        (st.statusRows ++ [procRow w (upsertMetadata st u v).1]).map upd ∧
      (∀ s, (upd s).envVariableId = s.envVariableId) ∧
      (∀ s, ¬s.envVariableId = (upsertMetadata st u v).1 → upd s = s) ∧
      (∀ s, s.envVariableId = (upsertMetadata st u v).1 →
        (upd s).status =
          (if (insertEnvVariable w st u v).1.indexed then "indexed" else "failed")) ∧
      ((insertEnvVariable w st u v).1.indexed = false →
        ∀ s, s.envVariableId = (upsertMetadata st u v).1 →
          ((upd s).errorMessage).isSome = true) := by
  have henvrows : ∀ (vid : String) (t : Nat),
      envList ((upsertMetadata st u v).2.1.map (fun r =>
        if r.env.id == (upsertMetadata st u v).1 then
          { r with vectorId := some vid, indexedAt := some t } else r)) =
      envList (upsertMetadata st u v).2.1 := by
    intro vid t
    unfold envList
    rw [List.map_map]
    apply List.map_congr_left
    intro r _
    by_cases h : r.env.id == (upsertMetadata st u v).1 <;>
      simp only [Function.comp, h, Bool.false_eq_true, if_true, if_false]
  have hgen : ∀ (stat : String) (ts : Option Nat) (msg : Option String),
      (∀ s, (statusFinal (upsertMetadata st u v).1 stat ts msg s).envVariableId =
        s.envVariableId) ∧
      (∀ s, ¬s.envVariableId = (upsertMetadata st u v).1 →
        statusFinal (upsertMetadata st u v).1 stat ts msg s = s) ∧
      (∀ s, s.envVariableId = (upsertMetadata st u v).1 →
        (statusFinal (upsertMetadata st u v).1 stat ts msg s).status = stat) := by
    intro stat ts msg
    refine ⟨fun s => ?_, fun s h => ?_, fun s h => ?_⟩
    · unfold statusFinal
      by_cases h : s.envVariableId == (upsertMetadata st u v).1 <;> simp [h]
    · unfold statusFinal
      rw [if_neg (by simp [h])]
    · unfold statusFinal
      rw [if_pos (by simp [h])]
  rcases hemb : w.embed (enrichText v) with msg | uu
  · rw [insert_eq_embedFail w st u v msg hemb]
    obtain ⟨h1, h2, h3⟩ := hgen "failed" none (some msg)
    refine ⟨rfl, rfl, statusFinal (upsertMetadata st u v).1 "failed" none (some msg),
      rfl, h1, h2, fun s h => by rw [h3 s h]; rfl, fun _ s h => ?_⟩
    unfold statusFinal
    rw [if_pos (by simp [h])]
    rfl
  · rcases hvi : w.vectorizeInsertOk with _ | _
    · rw [insert_eq_vecFail w st u v uu hemb hvi]
      obtain ⟨h1, h2, h3⟩ := hgen "failed" none (some w.vectorizeInsertErr)
      refine ⟨rfl, rfl,
        statusFinal (upsertMetadata st u v).1 "failed" none (some w.vectorizeInsertErr),
        rfl, h1, h2, fun s h => by rw [h3 s h]; rfl, fun _ s h => ?_⟩
      unfold statusFinal
      rw [if_pos (by simp [h])]
      rfl
    · rw [insert_eq_ok w st u v uu hemb hvi]
      obtain ⟨h1, h2, h3⟩ := hgen "indexed" (some w.now) none
      exact ⟨rfl, henvrows _ _,
        statusFinal (upsertMetadata st u v).1 "indexed" (some w.now) none,
        rfl, h1, h2, fun s h => by rw [h3 s h]; rfl,
        fun hcontra => absurd hcontra (by simp)⟩

theorem insert_indexed (w : ExternalWorld) (st : StoreState) (u : String)
    (v : EnvVarInput) :
    (insertEnvVariable w st u v).1.indexed =
      ((w.embed (enrichText v)).isOk && w.vectorizeInsertOk) := by
  rcases hemb : w.embed (enrichText v) with msg | uu
  · rw [insert_eq_embedFail w st u v msg hemb]
    simp [Except.isOk, Except.toBool]
  · rcases hvi : w.vectorizeInsertOk with _ | _
    · rw [insert_eq_vecFail w st u v uu hemb hvi]
      simp [Except.isOk, Except.toBool]
    · rw [insert_eq_ok w st u v uu hemb hvi]
      simp [Except.isOk, Except.toBool]

theorem insert_getByName (w : ExternalWorld) (st : StoreState) (u : String)
    (v : EnvVarInput) :
    getByName (insertEnvVariable w st u v).2 u v.name =
      some ⟨(insertEnvVariable w st u v).1.id, u, v.name, v.description, v.category,
        v.service, v.required, v.exampleVal, v.keywords, v.relatedTo⟩ := by
  obtain ⟨hid, hrows, -⟩ := insert_shape w st u v
  unfold getByName
  have hgoal : (envList (insertEnvVariable w st u v).2.rows).find? (keyE u v.name) =
      some ⟨(insertEnvVariable w st u v).1.id, u, v.name, v.description, v.category,
        v.service, v.required, v.exampleVal, v.keywords, v.relatedTo⟩ := by
    rw [hrows]
    rcases hf : st.rows.find? (keyMatch u v.name) with _ | r0
    · obtain ⟨hid', henv⟩ := upsertMetadata_fresh st u v hf
      rw [henv, List.find?_append]
      have h1 : (envList st.rows).find? (keyE u v.name) = none := by
        rw [envList_find_key, hf]
        rfl
      rw [h1, Option.none_or]
      have hkey : keyE u v.name (freshRow st.nextId u v).env = true := by
        simp [keyE, freshRow]
      rw [List.find?_cons_of_pos _ hkey]
      rw [hid, hid']
      rfl
    · obtain ⟨hid', henv⟩ := upsertMetadata_conflict st u v r0 hf
      rw [henv, List.find?_map]
      have hcomp : (keyE u v.name) ∘
          (fun e => if keyE u v.name e then updEnv v e else e) = keyE u v.name := by
        funext e
        by_cases h : keyE u v.name e <;>
          simp [Function.comp, h, keyE_updEnv]
      rw [hcomp]
      have h1 : (envList st.rows).find? (keyE u v.name) = some r0.env := by
        rw [envList_find_key, hf]
        rfl
      rw [h1]
      have hk : keyE u v.name r0.env = true := by
        have := List.find?_some hf
        simpa [keyMatch] using this
      obtain ⟨huid, hnm⟩ : r0.env.userId = u ∧ r0.env.name = v.name := by
        simpa [keyE, Bool.and_eq_true, beq_iff_eq] using hk
      simp only [Option.map_some', hk, if_true]
      rw [hid, hid']
      simp [updEnv, huid, hnm]
  rw [envList_find_key] at hgoal
  rcases hmf : (insertEnvVariable w st u v).2.rows.find? (keyMatch u v.name) with _ | r1
  · rw [hmf] at hgoal; simp at hgoal
  · rw [hmf] at hgoal
    simpa using hgoal

/-! ### Claim theorems for the write path -/

/-- C6: when the embedding or the Vectorize insert fails, `upsert` still
returns `{ id, indexed: false }`, the metadata row persists (the record is
retrievable through `getByName` with all the upserted fields), and every
indexing-status row of the record is `failed` and carries an error
message. -/
theorem upsert_partial_failure (w : ExternalWorld) (st : StoreState) (u : String)
    (v : EnvVarInput)
    (hfail : (w.embed (enrichText v)).isOk = false ∨ w.vectorizeInsertOk = false) :
    (insertEnvVariable w st u v).1.indexed = false ∧
    getByName (insertEnvVariable w st u v).2 u v.name =
      some ⟨(insertEnvVariable w st u v).1.id, u, v.name, v.description, v.category,
        v.service, v.required, v.exampleVal, v.keywords, v.relatedTo⟩ ∧
    (∃ s ∈ (insertEnvVariable w st u v).2.statusRows,
      s.envVariableId = (insertEnvVariable w st u v).1.id ∧ s.status = "failed" ∧
      s.errorMessage.isSome = true) ∧
    (∀ s ∈ (insertEnvVariable w st u v).2.statusRows,
      s.envVariableId = (insertEnvVariable w st u v).1.id → s.status = "failed") := by
  have hidx : (insertEnvVariable w st u v).1.indexed = false := by
    rw [insert_indexed]
    rcases hfail with h | h <;> simp [h]
  obtain ⟨hid, -, upd, hstat, hupId, hupNe, hupStatus, hupErr⟩ := insert_shape w st u v
  refine ⟨hidx, insert_getByName w st u v, ?_, ?_⟩
  · refine ⟨upd (procRow w (upsertMetadata st u v).1), ?_, ?_, ?_, ?_⟩
    · rw [hstat]
      exact List.mem_map_of_mem _ (List.mem_append_right _ (List.mem_singleton_self _))
    · rw [hupId, hid]
      rfl
    · have h := hupStatus (procRow w (upsertMetadata st u v).1) rfl
      rw [hidx] at h
      simpa using h
    · exact hupErr hidx _ rfl
  · intro s hs hsid
    rw [hstat] at hs
    rcases List.mem_map.mp hs with ⟨s0, hs0, hseq⟩
    by_cases h : s0.envVariableId = (upsertMetadata st u v).1
    · have hst := hupStatus s0 h
      rw [hidx] at hst
      rw [← hseq]
      simpa using hst
    · have heq := hupNe s0 h
      rw [← hseq, heq] at hsid
      rw [hid] at hsid
      exact absurd hsid h

/-- C9 (amended): each upsert of a `(tenant, name)` key appends one more
indexing-status row for the record (the `INSERT` has no conflict handling
and `indexing_status` has no uniqueness on `env_variable_id`), and the
finalising update then flips every status row of the record to `indexed` or
`failed`; so after n upserts the record has n status rows, not one. -/
theorem upsert_status_accumulates (w : ExternalWorld) (st : StoreState) (u : String)
    (v : EnvVarInput) :
    ((insertEnvVariable w st u v).2.statusRows.filter
        (fun s => s.envVariableId == (insertEnvVariable w st u v).1.id)).length =
      (st.statusRows.filter
        (fun s => s.envVariableId == (insertEnvVariable w st u v).1.id)).length + 1 ∧
    ∀ s ∈ (insertEnvVariable w st u v).2.statusRows,
      s.envVariableId = (insertEnvVariable w st u v).1.id →
      (s.status = "indexed" ∨ s.status = "failed") := by
  obtain ⟨hid, -, upd, hstat, hupId, hupNe, hupStatus, -⟩ := insert_shape w st u v
  constructor
  · rw [hstat, List.filter_map]
    have hpred : (fun s => s.envVariableId == (insertEnvVariable w st u v).1.id) ∘ upd =
        fun s => s.envVariableId == (insertEnvVariable w st u v).1.id := by
      funext s
      simp [Function.comp, hupId s]
    rw [hpred, List.length_map, List.filter_append, List.length_append]
    have hproc : (procRow w (upsertMetadata st u v).1).envVariableId ==
        (insertEnvVariable w st u v).1.id := by
      rw [hid]
      exact beq_self_eq_true _
    simp [List.filter, hproc]
  · intro s hs hsid
    rw [hstat] at hs
    rcases List.mem_map.mp hs with ⟨s0, hs0, hseq⟩
    by_cases h : s0.envVariableId = (upsertMetadata st u v).1
    · have hst := hupStatus s0 h
      rw [← hseq]
      by_cases hix : (insertEnvVariable w st u v).1.indexed
      · rw [hix] at hst; left; simpa using hst
      · rw [Bool.not_eq_true] at hix
        rw [hix] at hst; right; simpa using hst
    · have heq := hupNe s0 h
      rw [← hseq, heq] at hsid
      rw [hid] at hsid
      exact absurd hsid h

theorem keyUnique_iff (st : StoreState) :
    KeyUnique st ↔ (envList st.rows).Pairwise NRel := by
  unfold KeyUnique envList
  rw [List.pairwise_map]
  exact Iff.rfl

theorem condUpd_preserves_key (u : String) (v : EnvVarInput) (e : EnvVariable) :
    (if keyE u v.name e then updEnv v e else e).userId = e.userId ∧
    (if keyE u v.name e then updEnv v e else e).name = e.name := by
  by_cases h : keyE u v.name e <;> simp [h, updEnv]

theorem insert_keyUnique (w : ExternalWorld) (st : StoreState) (u : String)
    (v : EnvVarInput) (hWF : KeyUnique st) :
    KeyUnique (insertEnvVariable w st u v).2 := by
  rw [keyUnique_iff] at hWF ⊢
  obtain ⟨-, hrows, -⟩ := insert_shape w st u v
  rw [hrows]
  rcases hf : st.rows.find? (keyMatch u v.name) with _ | r0
  · rw [(upsertMetadata_fresh st u v hf).2]
    rw [List.pairwise_append]
    refine ⟨hWF, List.pairwise_singleton _ _, ?_⟩
    intro a ha b hb
    rw [List.mem_singleton] at hb
    subst hb
    rintro ⟨h1, h2⟩
    rcases List.mem_map.mp ha with ⟨r, hr, hre⟩
    have hnone := List.find?_eq_none.mp hf r hr
    apply hnone
    subst hre
    simp only [freshRow] at h1 h2
    simp [keyMatch, keyE, h1, h2]
  · rw [(upsertMetadata_conflict st u v r0 hf).2]
    rw [List.pairwise_map]
    apply hWF.imp
    intro a b hab
    unfold NRel
    rw [(condUpd_preserves_key u v a).1, (condUpd_preserves_key u v a).2,
      (condUpd_preserves_key u v b).1, (condUpd_preserves_key u v b).2]
    exact hab

theorem filter_key_singleton (u nm : String) :
    ∀ (l : List EnvVariable), l.Pairwise NRel →
      ∀ e, l.find? (keyE u nm) = some e → l.filter (keyE u nm) = [e] := by
  intro l
  induction l with
  | nil => intro _ e hfind; simp at hfind
  | cons a rest ih =>
    intro hWF e hfind
    rw [List.pairwise_cons] at hWF
    by_cases ha : keyE u nm a
    · rw [List.find?_cons_of_pos _ ha] at hfind
      injection hfind with hfind
      rw [List.filter_cons_of_pos ha]
      have hrest : rest.filter (keyE u nm) = [] := by
        rw [List.filter_eq_nil_iff]
        intro b hb hkb
        apply hWF.1 b hb
        simp only [keyE, Bool.and_eq_true, beq_iff_eq] at ha hkb
        exact ⟨ha.1.trans hkb.1.symm, ha.2.trans hkb.2.symm⟩
      rw [hrest, hfind]
    · rw [List.find?_cons_of_neg _ ha] at hfind
      rw [List.filter_cons_of_neg ha]
      exact ih hWF.2 e hfind

theorem insert_key_row (w : ExternalWorld) (st : StoreState) (u : String)
    (v : EnvVarInput) (hWF : KeyUnique st) :
    (envList (insertEnvVariable w st u v).2.rows).filter (keyE u v.name) =
      [⟨(insertEnvVariable w st u v).1.id, u, v.name, v.description, v.category,
        v.service, v.required, v.exampleVal, v.keywords, v.relatedTo⟩] := by
  obtain ⟨hid, hrows, -⟩ := insert_shape w st u v
  rw [hrows]
  rcases hf : st.rows.find? (keyMatch u v.name) with _ | r0
  · obtain ⟨hid', henv⟩ := upsertMetadata_fresh st u v hf
    rw [henv, List.filter_append]
    have h1 : (envList st.rows).filter (keyE u v.name) = [] := by
      rw [List.filter_eq_nil_iff]
      intro e he hke
      rcases List.mem_map.mp he with ⟨r, hr, hre⟩
      have hnone := List.find?_eq_none.mp hf r hr
      apply hnone
      rw [← hre] at hke
      exact hke
    have h2 : keyE u v.name (freshRow st.nextId u v).env = true := by
      simp [keyE, freshRow]
    rw [h1, List.filter_cons_of_pos h2]
    rw [hid, hid']
    rfl
  · obtain ⟨hid', henv⟩ := upsertMetadata_conflict st u v r0 hf
    rw [henv, List.filter_map]
    have hcomp : (keyE u v.name) ∘
        (fun e => if keyE u v.name e then updEnv v e else e) = keyE u v.name := by
      funext e
      by_cases h : keyE u v.name e <;> simp [Function.comp, h, keyE_updEnv]
    rw [hcomp]
    have h1 : (envList st.rows).find? (keyE u v.name) = some r0.env := by
      rw [envList_find_key, hf]
      rfl
    have hWF' := (keyUnique_iff st).mp hWF
    rw [filter_key_singleton u v.name (envList st.rows) hWF' r0.env h1]
    have hk : keyE u v.name r0.env = true := by
      have := List.find?_some hf
      simpa [keyMatch] using this
    obtain ⟨huid, hnm⟩ : r0.env.userId = u ∧ r0.env.name = v.name := by
      simpa [keyE, Bool.and_eq_true, beq_iff_eq] using hk
    simp only [List.map_cons, List.map_nil, hk, if_true]
    rw [hid, hid']
    simp [updEnv, huid, hnm]

theorem keyE_env_eq (u nm : String) :
    (fun r : EnvRow => keyE u nm r.env) = keyMatch u nm := rfl

theorem insert_tenant_count (w : ExternalWorld) (st : StoreState) (u : String)
    (v : EnvVarInput) (r0 : EnvRow)
    (hf : st.rows.find? (keyMatch u v.name) = some r0) :
    ((insertEnvVariable w st u v).2.rows.filter (fun r => r.env.userId == u)).length =
      (st.rows.filter (fun r => r.env.userId == u)).length := by
  obtain ⟨-, hrows, -⟩ := insert_shape w st u v
  have h1 : ((envList (insertEnvVariable w st u v).2.rows).filter
      (fun e => e.userId == u)).length =
      ((envList st.rows).filter (fun e => e.userId == u)).length := by
    rw [hrows, (upsertMetadata_conflict st u v r0 hf).2, List.filter_map]
    have hcomp : (fun e : EnvVariable => e.userId == u) ∘
        (fun e => if keyE u v.name e then updEnv v e else e) =
        fun e : EnvVariable => e.userId == u := by
      funext e
      simp [Function.comp, (condUpd_preserves_key u v e).1]
    rw [hcomp, List.length_map]
  have h2 := rows_filter_env_length (insertEnvVariable w st u v).2.rows
    (fun e => e.userId == u)
  have h3 := rows_filter_env_length st.rows (fun e => e.userId == u)
  rw [h2, h3] at h1
  exact h1

/-- C7: upserting the same `(tenant, name)` twice with different
descriptions leaves exactly one record under that key, bearing the second
description, and leaves the tenant's record count unchanged relative to the
state after the first upsert. -/
theorem upsert_idempotent (w1 w2 : ExternalWorld) (st : StoreState) (u : String)
    (v1 v2 : EnvVarInput) (hname : v2.name = v1.name) (hWF : KeyUnique st) :
    (((insertEnvVariable w2 (insertEnvVariable w1 st u v1).2 u v2).2.rows.filter
        (keyMatch u v1.name)).length = 1) ∧
    (∀ r ∈ (insertEnvVariable w2 (insertEnvVariable w1 st u v1).2 u v2).2.rows.filter
        (keyMatch u v1.name), r.env.description = v2.description) ∧
    (((insertEnvVariable w2 (insertEnvVariable w1 st u v1).2 u v2).2.rows.filter
        (fun r => r.env.userId == u)).length =
      ((insertEnvVariable w1 st u v1).2.rows.filter
        (fun r => r.env.userId == u)).length) := by
  have hWF1 : KeyUnique (insertEnvVariable w1 st u v1).2 :=
    insert_keyUnique w1 st u v1 hWF
  have hkey := insert_key_row w2 (insertEnvVariable w1 st u v1).2 u v2 hWF1
  rw [hname] at hkey
  refine ⟨?_, ?_, ?_⟩
  · have hlen := congrArg List.length hkey
    rw [rows_filter_env_length] at hlen
    rw [keyE_env_eq] at hlen
    exact hlen
  · intro r hr
    have hmem : r.env ∈ (envList
        (insertEnvVariable w2 (insertEnvVariable w1 st u v1).2 u v2).2.rows).filter
        (keyE u v1.name) := by
      rw [List.mem_filter] at hr ⊢
      exact ⟨List.mem_map_of_mem _ hr.1, hr.2⟩
    rw [hkey, List.mem_singleton] at hmem
    rw [hmem]
  · have hfound : ∃ r1, (insertEnvVariable w1 st u v1).2.rows.find?
        (keyMatch u v2.name) = some r1 := by
      have hg := insert_getByName w1 st u v1
      unfold getByName at hg
      rcases Option.map_eq_some'.mp hg with ⟨r1, hr1, -⟩
      rw [hname]
      exact ⟨r1, hr1⟩
    obtain ⟨r1, hr1⟩ := hfound
    exact insert_tenant_count w2 (insertEnvVariable w1 st u v1).2 u v2 r1 hr1

/-! ### Counterexamples -/

/-- C2 counterexample: the embedding provider fails on the call, the single
result comes from the lexical channel alone, yet `search` tags it
`"hybrid"`, not `"keyword"`. -/
theorem matchType_keyword_counterexample :
    (worldEmbedDown.embed "payment processing").isOk = false ∧
    (searchOp worldEmbedDown sampleState "tA" "payment processing" {}).map
      (fun r => r.matchType) = ["hybrid"] := by
  constructor
  · rfl
  · with_unfolding_all decide

set_option maxRecDepth 4000 in
/-- C3 counterexample: with 60 lexical matches on file and `limit := 51`,
`search` returns 51 results — more than the claimed hard cap of 50. -/
theorem limit_cap_counterexample :
    (searchOp worldWide wideState "u1" "records" { limit := some 51 }).length = 51 := by
  with_unfolding_all decide

/-- C9 counterexample: upserting the same `(tenant, name)` twice leaves two
indexing-status rows for the record, not one. -/
theorem status_single_row_counterexample :
    ((insertEnvVariable worldOk
        (insertEnvVariable worldOk emptyState "tA" sampleInput).2
        "tA" sampleInput2).2.statusRows.filter
      (fun s => s.envVariableId == 1)).length = 2 := by
  with_unfolding_all decide

/-! ### Witness instances -/

/-- C1 witness at a concrete store: tenant `tB` sees nothing of `tA`. -/
theorem tenant_isolation_witness :
    (∀ res ∈ searchOp worldOk sampleState "tB" "payment processing" {},
      res.env ≠ sampleEnv) ∧
    (∀ e, getByName sampleState "tB" "STRIPE_SECRET_KEY" = some e → e ≠ sampleEnv) :=
  tenant_isolation worldOk sampleState "payment processing" {} "tA" "tB"
    "STRIPE_SECRET_KEY" sampleEnv (by decide) rfl

/-- C2 (amended) witness: the concrete hybrid hit carries `"hybrid"`. -/
theorem search_matchType_always_hybrid_witness :
    sampleResult ∈ searchOp worldOk sampleState "tA" "payment processing" {} ∧
    sampleResult.matchType = "hybrid" :=
  ⟨by with_unfolding_all decide,
   search_matchType_always_hybrid worldOk sampleState "tA" "payment processing" {}
     sampleResult (by with_unfolding_all decide)⟩

/-- C3 (amended) witness: the default-limit call returns at most 10. -/
theorem search_result_count_bound_witness :
    (searchOp worldOk sampleState "tA" "payment processing" {}).length ≤ effLimit {} ∧
    (searchOp worldOk sampleState "tA" "payment processing" {}).length ≤ 10 :=
  ⟨(search_result_count_bound worldOk sampleState "tA" "payment processing" {}).1,
   (search_result_count_bound worldOk sampleState "tA" "payment processing" {}).2 rfl⟩

/-- C4 witness: the cosine hypothesis holds on the concrete store and the
concrete hit decomposes within the claimed bounds. -/
theorem search_score_bounds_witness :
    (∀ v ∈ sampleState.vectors,
      0 ≤ worldOk.cosineScore "payment processing" v ∧
      worldOk.cosineScore "payment processing" v ≤ 1) ∧
    sampleResult ∈ searchOp worldOk sampleState "tA" "payment processing" {} ∧
    (∃ e ∈ mergeEntries (semanticSearch worldOk sampleState "tA" "payment processing" {})
        (keywordCaught worldOk sampleState "tA" "payment processing" {}),
      sampleResult.env = e.env ∧ sampleResult.score = e.sem + e.kw + e.boost ∧
      0 ≤ e.sem ∧ e.sem ≤ 0.6 ∧
      (e.kw ≠ 0 → 0.03 ≤ e.kw ∧ e.kw ≤ 0.3) ∧
      (e.boost = 0 ∨ e.boost = 0.05 ∨ e.boost = 0.1) ∧
      sampleResult.score ≤ 1) :=
  ⟨by with_unfolding_all decide, by with_unfolding_all decide,
   search_score_bounds worldOk sampleState "tA" "payment processing" {}
     (by with_unfolding_all decide) sampleResult (by with_unfolding_all decide)⟩

/-- C5 witness: with all three collaborators down the concrete search
degrades exactly as the theorem states, down to the empty list. -/
theorem search_degradation_witness :
    searchOp worldAllDown sampleState "tA" "payment processing" {} =
      searchMerge []
        (keywordCaught worldAllDown sampleState "tA" "payment processing" {}) {} ∧
    keywordSearch worldAllDown sampleState "tA" "payment processing" {} =
      likeSearchE worldAllDown sampleState "tA" "payment processing" {} ∧
    searchOp worldAllDown sampleState "tA" "payment processing" {} = [] :=
  ⟨(search_degradation worldAllDown sampleState "tA" "payment processing" {}).1 rfl,
   (search_degradation worldAllDown sampleState "tA" "payment processing" {}).2.1
     (by with_unfolding_all decide) rfl,
   (search_degradation worldAllDown sampleState "tA" "payment processing" {}).2.2
     rfl rfl rfl⟩

/-- C6 witness: a concrete failed upsert still persists the metadata row and
records the failure. -/
theorem upsert_partial_failure_witness :
    (insertEnvVariable worldEmbedDown emptyState "tA" sampleInput).1.indexed = false ∧
    getByName (insertEnvVariable worldEmbedDown emptyState "tA" sampleInput).2
        "tA" sampleInput.name =
      some ⟨(insertEnvVariable worldEmbedDown emptyState "tA" sampleInput).1.id, "tA",
        sampleInput.name, sampleInput.description, sampleInput.category,
        sampleInput.service, sampleInput.required, sampleInput.exampleVal,
        sampleInput.keywords, sampleInput.relatedTo⟩ ∧
    (∃ s ∈ (insertEnvVariable worldEmbedDown emptyState "tA" sampleInput).2.statusRows,
      s.envVariableId = (insertEnvVariable worldEmbedDown emptyState "tA" sampleInput).1.id ∧
      s.status = "failed" ∧ s.errorMessage.isSome = true) ∧
    (∀ s ∈ (insertEnvVariable worldEmbedDown emptyState "tA" sampleInput).2.statusRows,
      s.envVariableId = (insertEnvVariable worldEmbedDown emptyState "tA" sampleInput).1.id →
      s.status = "failed") :=
  upsert_partial_failure worldEmbedDown emptyState "tA" sampleInput (Or.inl rfl)

/-- C7 witness: two concrete upserts of the same key from the empty store. -/
theorem upsert_idempotent_witness :
    (((insertEnvVariable worldOk (insertEnvVariable worldOk emptyState "tA" sampleInput).2
        "tA" sampleInput2).2.rows.filter (keyMatch "tA" sampleInput.name)).length = 1) ∧
    (∀ r ∈ (insertEnvVariable worldOk
        (insertEnvVariable worldOk emptyState "tA" sampleInput).2
        "tA" sampleInput2).2.rows.filter (keyMatch "tA" sampleInput.name),
      r.env.description = sampleInput2.description) ∧
    (((insertEnvVariable worldOk (insertEnvVariable worldOk emptyState "tA" sampleInput).2
        "tA" sampleInput2).2.rows.filter (fun r => r.env.userId == "tA")).length =
      ((insertEnvVariable worldOk emptyState "tA" sampleInput).2.rows.filter
        (fun r => r.env.userId == "tA")).length) :=
  upsert_idempotent worldOk worldOk emptyState "tA" sampleInput sampleInput2 rfl
    (by decide)

/-- C8 witness: on the tie fixture the sum decomposition holds for the first
hit, the output is sorted, and the tied pair keeps its channel insertion
order through the stable sort. -/
theorem search_ordering_witness :
    (∃ e ∈ mergeEntries (semanticSearch worldTie tieState "tA" "alpha beta" {})
        (keywordCaught worldTie tieState "tA" "alpha beta" {}),
      tieResX.env = e.env ∧ tieResX.score = e.sem + e.kw + e.boost) ∧
    (searchOp worldTie tieState "tA" "alpha beta" {}).Pairwise
      (fun a b => b.score ≤ a.score) ∧
    List.Sublist [tieResX, tieResY]
      ((finalScored (semanticSearch worldTie tieState "tA" "alpha beta" {})
        (keywordCaught worldTie tieState "tA" "alpha beta" {})).mergeSort descLe) ∧
    searchOp worldTie tieState "tA" "alpha beta" {} =
      ((finalScored (semanticSearch worldTie tieState "tA" "alpha beta" {})
        (keywordCaught worldTie tieState "tA" "alpha beta" {})).mergeSort descLe).take
        (effLimit {}) := by
  have hfs : finalScored (semanticSearch worldTie tieState "tA" "alpha beta" {})
      (keywordCaught worldTie tieState "tA" "alpha beta" {}) = [tieResX, tieResY] := by
    with_unfolding_all decide
  refine ⟨(search_ordering worldTie tieState "tA" "alpha beta" {}).1 tieResX
      (by with_unfolding_all decide),
    (search_ordering worldTie tieState "tA" "alpha beta" {}).2.1,
    (search_ordering worldTie tieState "tA" "alpha beta" {}).2.2.1 tieResX tieResY
      (by rw [hfs]) (by with_unfolding_all decide),
    (search_ordering worldTie tieState "tA" "alpha beta" {}).2.2.2⟩

/-- C9 (amended) witness: the concrete upsert adds exactly one status row
and finalises it. -/
theorem upsert_status_accumulates_witness :
    ((insertEnvVariable worldOk emptyState "tA" sampleInput).2.statusRows.filter
        (fun s => s.envVariableId ==
          (insertEnvVariable worldOk emptyState "tA" sampleInput).1.id)).length =
      (emptyState.statusRows.filter
        (fun s => s.envVariableId ==
          (insertEnvVariable worldOk emptyState "tA" sampleInput).1.id)).length + 1 ∧
    (IndexingStatusRow.mk 1 "indexed" (some 5) (some 5) none 0 ∈
        (insertEnvVariable worldOk emptyState "tA" sampleInput).2.statusRows ∧
      ((IndexingStatusRow.mk 1 "indexed" (some 5) (some 5) none 0).status = "indexed" ∨
        (IndexingStatusRow.mk 1 "indexed" (some 5) (some 5) none 0).status = "failed")) :=
  ⟨(upsert_status_accumulates worldOk emptyState "tA" sampleInput).1,
   by with_unfolding_all decide,
   (upsert_status_accumulates worldOk emptyState "tA" sampleInput).2
     (IndexingStatusRow.mk 1 "indexed" (some 5) (some 5) none 0)
     (by with_unfolding_all decide) (by with_unfolding_all decide)⟩

/-- C10 witness: a query of single-character words skips the lexical index
on the concrete store. -/
theorem short_tokens_skip_lexical_witness :
    keywordSearch worldOk sampleState "tA" "a b" {} = .ok [] ∧
    searchOp worldOk sampleState "tA" "a b" {} =
      searchMerge (semanticSearch worldOk sampleState "tA" "a b" {}) [] {} :=
  short_tokens_skip_lexical worldOk sampleState "tA" "a b" {}
    (by with_unfolding_all decide)

end EnvMem
